import Mathlib

/-!
Shallow embedding of the media acquisition / preprocessing pipeline of the
`web-report-slides2pdf` repository (source files `video_to_pdf_gui.py` and
`downloader.py`).

Python strings are modelled as lists of characters (`Str`), Python floats as
exact rationals (`ℚ`; every numeric value appearing in the verified claims is
exactly representable), and fallible Python code as `Except`-valued functions.
Python builtins (`str.strip`, `str.split`, `float(...)`, `int(...)`,
`str.isdigit`, `str.lower`) are modelled on their ASCII / decimal-literal
fragment; the doc comment of each such model states the modelled fragment.
-/

namespace SlidesPdf

/-- Python strings are modelled as lists of characters. -/
abbrev Str := List Char

/-- ASCII decimal digit test (the fragment of CPython `str.isdigit` and of the
digit classes of `float()` / `int()` exercised by this program). -/
def isDigitC (c : Char) : Bool := decide (48 ≤ c.toNat) && decide (c.toNat ≤ 57)

/-- ASCII whitespace, as stripped by CPython `str.strip()` with no argument
(space, tab, newline, carriage return, vertical tab, form feed). -/
def pyIsSpace (c : Char) : Bool :=
  c.toNat = 32 || c.toNat = 9 || c.toNat = 10 || c.toNat = 13 || c.toNat = 11 || c.toNat = 12

/-- Model of CPython `str.strip()`: drop leading and trailing whitespace. -/
def pyStrip (s : Str) : Str :=
  ((s.dropWhile pyIsSpace).reverse.dropWhile pyIsSpace).reverse

/-- Model of CPython `str.split(sep)` for a one-character separator: splits at
every occurrence of the separator; the empty string yields `[[]]`. -/
def pySplit (sep : Char) : Str → List Str
  | [] => [[]]
  | c :: rest =>
    if c = sep then [] :: pySplit sep rest
    else
      match pySplit sep rest with
      | [] => [[c]]
      | t :: ts => (c :: t) :: ts

/-- Numeric value of a string of decimal digits (most significant first). -/
def digitsVal (s : Str) : Nat := s.foldl (fun n c => 10 * n + (c.toNat - 48)) 0

/-- Value of a nonempty all-digit string, `none` otherwise. -/
def unsignedDigits (s : Str) : Option Nat :=
  if s ≠ [] ∧ s.all isDigitC then some (digitsVal s) else none

/-- Optionally signed nonempty digit string (used for exponents and by
`pyInt`). -/
def signedDigits : Str → Option Int
  | [] => none
  | c :: rest =>
    if c = '+' then (unsignedDigits rest).map (fun n => (n : Int))
    else if c = '-' then (unsignedDigits rest).map (fun n => -(n : Int))
    else (unsignedDigits (c :: rest)).map (fun n => (n : Int))

/-- Model of CPython `int(text)` on its decimal fragment: strip whitespace,
optional sign, nonempty digit string.  (Underscore digit separators and
non-ASCII digits are outside the modelled fragment.) -/
def pyInt (s : Str) : Option Int := signedDigits (pyStrip s)

/-- Exponent suffix of a float literal: empty means exponent `0`;
`e`/`E` followed by an optionally signed digit string; anything else is a
parse failure. -/
def expSuffix : Str → Option Int
  | [] => some 0
  | c :: rest => if c = 'e' ∨ c = 'E' then signedDigits rest else none

/-- Unsigned part of a CPython float literal:
`digits [. digits] [exp]` or `. digits [exp]`. -/
def pyFloatUnsigned (s : Str) : Option ℚ :=
  let ip := s.takeWhile isDigitC
  let r1 := s.dropWhile isDigitC
  match r1 with
  | [] => if ip = [] then none else some (digitsVal ip)
  | c :: r2 =>
    if c = '.' then
      let fp := r2.takeWhile isDigitC
      let r3 := r2.dropWhile isDigitC
      if ip = [] ∧ fp = [] then none
      else
        (expSuffix r3).map
          (fun e => ((digitsVal ip : ℚ) + (digitsVal fp : ℚ) / (10 : ℚ) ^ fp.length) * (10 : ℚ) ^ e)
    else if ip = [] then none
    else (expSuffix (c :: r2)).map (fun e => (digitsVal ip : ℚ) * (10 : ℚ) ^ e)

/-- Model of CPython `float(text)` on its finite decimal fragment: strip
whitespace, optional sign, decimal mantissa with optional fraction and
optional exponent.  (The special spellings `inf`/`infinity`/`nan` and
underscore digit separators are outside the modelled fragment; no claim
depends on them.) -/
def pyFloat (s : Str) : Option ℚ :=
  match pyStrip s with
  | [] => none
  | c :: rest =>
    if c = '+' then pyFloatUnsigned rest
    else if c = '-' then (pyFloatUnsigned rest).map (fun v => -v)
    else pyFloatUnsigned (c :: rest)

/-- Grammar hint carried by the time-format error of
`App._parse_time_to_seconds`. -/
def timeFormatHint : Str := "时间格式应为 秒 或 mm:ss 或 hh:mm:ss，可带小数".toList

/-- Embedding of `App._parse_time_to_seconds` (video_to_pdf_gui.py lines
76-95): empty/whitespace text is absent; otherwise the text is split on `:`
into one, two, or three components (`SS`, `MM:SS`, `HH:MM:SS`, final component
possibly fractional); any failure raises a `ValueError` carrying the grammar
hint. -/
def parseTimeToSeconds (text : Str) : Except Str (Option ℚ) :=
  let s := pyStrip text
  if s = [] then .ok none
  else
    match pySplit ':' s with
    | [p0] =>
      match pyFloat p0 with
      | some v => .ok (some v)
      | none => .error timeFormatHint
    | [p0, p1] =>
      match pyInt p0, pyFloat p1 with
      | some m, some sec => .ok (some ((m : ℚ) * 60 + sec))
      | _, _ => .error timeFormatHint
    | [p0, p1, p2] =>
      match pyInt p0, pyInt p1, pyFloat p2 with
      | some h, some m, some sec => .ok (some ((h : ℚ) * 3600 + (m : ℚ) * 60 + sec))
      | _, _, _ => .error timeFormatHint
    | _ => .error timeFormatHint

/-! ### Downloader (`downloader.py`) -/

/-- Embedding of the quality-to-height mapping of `download_video`
(downloader.py lines 26-31): `max_height` is set when the quality string is
nonempty, ends with `p`, and the remainder is a nonempty digit string. -/
def maxHeightOf (quality : Str) : Option Nat :=
  if quality ≠ [] ∧ quality.getLast? = some 'p' ∧ quality.dropLast ≠ [] ∧ quality.dropLast.all isDigitC
  then some (digitsVal quality.dropLast)
  else none

/-- Unconstrained best-video+best-audio-or-best-combined format query. -/
def fmtUnbounded : Str := "bv*+ba/b".toList

/-- Height-bounded format query built for a numeric quality tier. -/
def fmtBounded (h : Nat) : Str :=
  "bv*[height<=?".toList ++ (Nat.repr h).toList
    ++ "]+ba/b[height<=?".toList ++ (Nat.repr h).toList ++ "]".toList

/-- Embedding of the format-query construction of `download_video`
(downloader.py lines 32-35).  The Python guard `if max_height:` is truthiness:
both `None` and `0` select the unconstrained query. -/
def formatSelectorOf (quality : Str) : Str :=
  match maxHeightOf quality with
  | some h => if h ≠ 0 then fmtBounded h else fmtUnbounded
  | none => fmtUnbounded

/-- Model of one entry of a playlist metadata result.  `isDict` covers the
`isinstance(entry, dict)` guard; `requestedDownloads` lists the filepaths of
the `requested_downloads` records (a missing or falsy field is the empty
list). -/
structure DlEntry where
  isDict : Bool
  requestedDownloads : List Str
deriving DecidableEq

/-- Model of a metadata dictionary returned by the download engine.
`entries = some l` means the `entries` key is present with list value `l`. -/
structure InfoDict where
  entries : Option (List DlEntry)
  requestedDownloads : List Str
deriving DecidableEq

/-- Metadata result of `ydl.extract_info`: either a dictionary or something
else (e.g. `None`), which the code rejects. -/
inductive DlInfo
  | notDict
  | dict (d : InfoDict)
deriving DecidableEq

/-- Argument handed to `ydl.prepare_filename`: either the first playlist
entry or the top-level info dictionary. -/
inductive PrepTarget
  | entry (e : DlEntry)
  | top
deriving DecidableEq

/-- Message of the error raised when the engine returns no usable metadata. -/
def downloadErrMsg : Str := "Download did not return information for the file path".toList

/-- Embedding of the output-path resolution of `download_video`
(downloader.py lines 61-75).  `prepare` abstracts `ydl.prepare_filename`
(the path derived from the naming template). -/
def resolveDownloadedPath (prepare : PrepTarget → Str) (info : DlInfo) : Except Str Str :=
  match info with
  | .notDict => .error downloadErrMsg
  | .dict d =>
    match d.entries with
    | some (e :: _) =>
      match e.isDict, e.requestedDownloads with
      | true, r :: _ => .ok r
      | _, _ => .ok (prepare (.entry e))
    | some [] | none =>
      match d.requestedDownloads with
      | r :: _ => .ok r
      | [] => .ok (prepare .top)

/-! ### Trimmer (`App._trim_video_with_ffmpeg`, video_to_pdf_gui.py lines 97-123) -/

/-- Observation of one `subprocess.run` invocation of ffmpeg together with the
state of the output file right after it (`dst.exists()` and
`dst.stat().st_size`). -/
structure RunResult where
  returncode : Int
  dstExists : Bool
  dstSize : Nat
deriving DecidableEq

/-- Environment of one trim invocation: the result of `shutil.which("ffmpeg")`
and the observations of the (up to) two subprocess runs. -/
structure TrimEnv where
  ffmpegPath : Option Str
  fastResult : RunResult
  slowResult : RunResult
deriving DecidableEq

/-- Errors raised by `App._trim_video_with_ffmpeg`. -/
inductive TrimErr
  | toolMissing
  | trimFailed
deriving DecidableEq

/-- Message text of each trim error (the `RuntimeError` payloads). -/
def trimErrMessage : TrimErr → Str
  | .toolMissing => "未找到 ffmpeg，请先安装并加入 PATH".toList
  | .trimFailed => "ffmpeg 剪切失败".toList

/-- Round a rational to the nearest integer, ties to even (the rounding of
CPython fixed-point float formatting on exactly representable values). -/
def roundHalfEven (q : ℚ) : Int :=
  let f := ⌊q⌋
  let r := q - f
  if r < 1 / 2 then f else if 1 / 2 < r then f + 1 else if f % 2 = 0 then f else f + 1

/-- Three decimal digits with leading zeros (for the fractional part). -/
def natPad3 (n : Nat) : Str :=
  let d := (Nat.repr n).toList
  List.replicate (3 - d.length) '0' ++ d

/-- Model of the f-string fixed-point formatting `%.3f` used for `-ss` and
`-t` values (on the exactly representable values reaching it). -/
def fmt3 (q : ℚ) : Str :=
  let n := (roundHalfEven (|q| * 1000)).toNat
  (if q < 0 then ['-'] else []) ++ (Nat.repr (n / 1000)).toList ++ '.' :: natPad3 (n % 1000)

/-- Duration passed to `-t` (lines 106-108): set only when both bounds are
present and `end > start`. -/
def durationOf : Option ℚ → Option ℚ → Option ℚ
  | some s, some e => if s < e then some (e - s) else none
  | some _, none => none
  | none, _ => none

/-- Optional `-ss start` arguments (lines 109-110). -/
def ssArgsOf : Option ℚ → List Str
  | some s => ["-ss".toList, fmt3 s]
  | none => []

/-- Optional `-t duration` arguments (lines 112-113). -/
def tArgsOf : Option ℚ → List Str
  | some d => ["-t".toList, fmt3 d]
  | none => []

/-- Embedding of the shared argument construction of
`App._trim_video_with_ffmpeg` (lines 105-113): overwrite flag, optional
`-ss start`, input path, and `-t end-start` when both bounds are present and
`end > start`. -/
def trimBaseArgs (ffmpeg : Str) (src : Str) (startS endS : Option ℚ) : List Str :=
  [ffmpeg, "-y".toList] ++ ssArgsOf startS ++ ["-i".toList, src]
    ++ tArgsOf (durationOf startS endS)

/-- Arguments appended for the fast stream-copy attempt. -/
def fastTail (dst : Str) : List Str := ["-c".toList, "copy".toList, dst]

/-- Arguments appended for the re-encode attempt. -/
def slowTail (dst : Str) : List Str :=
  ["-c:v".toList, "libx264".toList, "-preset".toList, "fast".toList, "-crf".toList,
   "23".toList, "-c:a".toList, "aac".toList, "-b:a".toList, "192k".toList, dst]

instance {ε α : Type _} [DecidableEq ε] [DecidableEq α] : DecidableEq (Except ε α) := fun a b =>
  match a, b with
  | .ok x, .ok y =>
    if h : x = y then .isTrue (congrArg Except.ok h) else .isFalse (fun hh => h (Except.ok.inj hh))
  | .ok _, .error _ => .isFalse (fun hh => Except.noConfusion hh)
  | .error _, .ok _ => .isFalse (fun hh => Except.noConfusion hh)
  | .error x, .error y =>
    if h : x = y then .isTrue (congrArg Except.error h)
    else .isFalse (fun hh => h (Except.error.inj hh))

/-- Outcome of one trim invocation: the ffmpeg command lines actually run and
the result (success or raised error). -/
structure TrimOutcome where
  calls : List (List Str)
  result : Except TrimErr Unit
deriving DecidableEq

/-- Embedding of `App._trim_video_with_ffmpeg` (lines 100-123): tool check,
fast stream-copy attempt judged by `returncode == 0 and dst.exists() and
dst.stat().st_size > 0`, re-encode attempt on failure judged by the negated
criterion `returncode != 0 or not dst.exists() or size == 0`. -/
def trimVideoWithFfmpeg (env : TrimEnv) (src dst : Str) (startS endS : Option ℚ) : TrimOutcome :=
  match env.ffmpegPath with
  | none => { calls := [], result := .error .toolMissing }
  | some ffmpeg =>
    let args := trimBaseArgs ffmpeg src startS endS
    let fastArgs := args ++ fastTail dst
    let res := env.fastResult
    if res.returncode = 0 ∧ res.dstExists = true ∧ 0 < res.dstSize then
      { calls := [fastArgs], result := .ok () }
    else
      let slowArgs := args ++ slowTail dst
      let res2 := env.slowResult
      if res2.returncode ≠ 0 ∨ res2.dstExists = false ∨ res2.dstSize = 0 then
        { calls := [fastArgs, slowArgs], result := .error .trimFailed }
      else
        { calls := [fastArgs, slowArgs], result := .ok () }

/-! ### Toggle state machine (`App._on_toggle_auto_crop`,
`App._on_toggle_manual_select`, lines 262-276) -/

/-- Configuration state of the two region-mode checkbuttons. -/
structure ToggleState where
  autoCrop : Bool
  manualSelect : Bool
deriving DecidableEq

/-- Initial widget state: auto-crop enabled, manual selection disabled
(lines 205, 213). -/
def initToggles : ToggleState := { autoCrop := true, manualSelect := false }

/-- Clicking the auto-crop checkbutton: the bound variable flips, then
`_on_toggle_auto_crop` runs and, when auto-crop is now enabled, clears the
manual-selection variable. -/
def toggleAutoCrop (s : ToggleState) : ToggleState :=
  let ac := !s.autoCrop
  { autoCrop := ac, manualSelect := if ac then false else s.manualSelect }

/-- Clicking the manual-selection checkbutton: the bound variable flips, then
`_on_toggle_manual_select` runs and, when manual selection is now enabled,
clears the auto-crop variable. -/
def toggleManualSelect (s : ToggleState) : ToggleState :=
  let ms := !s.manualSelect
  { manualSelect := ms, autoCrop := if ms then false else s.autoCrop }

/-- The two user events that drive the region-mode configuration. -/
inductive ToggleEvent
  | autoCropClick
  | manualSelectClick
deriving DecidableEq

/-- One configuration step. -/
def applyToggle : ToggleEvent → ToggleState → ToggleState
  | .autoCropClick, s => toggleAutoCrop s
  | .manualSelectClick, s => toggleManualSelect s

/-- Toggle states reachable from the initial configuration by checkbutton
clicks. -/
inductive ReachableToggle : ToggleState → Prop
  | init : ReachableToggle initToggles
  | step {s : ToggleState} (e : ToggleEvent) : ReachableToggle s → ReachableToggle (applyToggle e s)

/-! ### Run guard (`App._on_run`, lines 291-302) -/

/-- State of the single worker handle `self._worker`: whether a worker object
exists and whether it is alive. -/
structure AppGuard where
  workerExists : Bool
  workerAlive : Bool
deriving DecidableEq

/-- Immediate outcome of pressing the run button. -/
inductive RunDecision
  | busyRejected
  | missingInput
  | started
deriving DecidableEq

/-- Embedding of the entry guard of `App._on_run` (lines 291-302): an alive
worker rejects the request with a busy message and leaves the state unchanged;
empty input warns; otherwise a new worker is started and recorded as the
single worker handle. -/
def onRunGuard (st : AppGuard) (inputText : Str) : RunDecision × AppGuard :=
  if st.workerExists ∧ st.workerAlive then (.busyRejected, st)
  else if pyStrip inputText = [] then (.missingInput, st)
  else (.started, { workerExists := true, workerAlive := true })

/-! ### Worker pipeline (`App._on_run.work`, lines 304-452) -/

/-- ASCII fragment of CPython `str.lower` (the URL schemes tested are
ASCII). -/
def pyToLower (c : Char) : Char :=
  if 65 ≤ c.toNat ∧ c.toNat ≤ 90 then Char.ofNat (c.toNat + 32) else c

/-- Embedding of the URL test of the worker (line 309):
`input_path.lower().startswith(("http://", "https://"))`. -/
def isUrlInput (s : Str) : Bool :=
  let l := s.map pyToLower
  List.isPrefixOf "http://".toList l || List.isPrefixOf "https://".toList l

/-- Outcome of the resolution-probe block (lines 366-380).  `raised` covers
any exception inside the block (swallowed by its `except`); `opened` carries
the declared dimensions and, optionally, the measured first frame as
`(height, width)`. -/
inductive ProbeOutcome
  | raised
  | notOpened
  | opened (width height : Nat) (firstFrame : Option (Nat × Nat))
deriving DecidableEq

/-- Resolution the probe block reports, if any (lines 368-378): zero/absent
declared dimensions fall back to measuring the first frame; only a fully
nonzero pair is reported. -/
def probeResolution : ProbeOutcome → Option (Nat × Nat)
  | .raised => none
  | .notOpened => none
  | .opened w h firstFrame =>
    let wh :=
      if w = 0 ∨ h = 0 then
        match firstFrame with
        | some (fh, fw) => (fw, fh)
        | none => (w, h)
      else (w, h)
    if wh.1 ≠ 0 ∧ wh.2 ≠ 0 then some wh else none

/-- Outcome of the interactive rectangle selection (lines 389-406).
`frameReadFailed` is the raised-and-caught failure to read the first frame;
`raised` covers any other exception in the block; `chosen` is the rectangle
returned by `cv2.selectROI` (all zeros when the user cancels). -/
inductive RoiOutcome
  | frameReadFailed
  | raised
  | chosen (x y w h : Int)
deriving DecidableEq

/-- Manual crop resulting from the selection block: present only when manual
selection is enabled, the selection succeeded, and the rectangle has positive
width and height (lines 399-401). -/
def manualCropOf (manualSelect : Bool) (roi : RoiOutcome) : Option (Int × Int × Int × Int) :=
  if manualSelect then
    match roi with
    | .chosen x y w h => if 0 < w ∧ 0 < h then some (x, y, w, h) else none
    | _ => none
  else none

/-- Errors that abort the worker (each constructor is one raise site of
`App._on_run.work` or of a stage it invokes). -/
inductive WorkErr
  | downloadFailed (msg : Str)
  | startTimeFormat (hint : Str)
  | endTimeFormat (hint : Str)
  | invalidRange
  | trim (e : TrimErr)
  | convFailed (text : Str)
  | cropSpec (msg : Str)
deriving DecidableEq

/-- Arguments of the final `extract_frames_to_pdf` call (lines 429-446).
`outputPdf`/`outDir` are `none` when the defaults derived from the video path
are used (the path arithmetic of `with_suffix` / `parent` is
filesystem-dependent and not needed by any claim). -/
structure ExtractArgs where
  videoPath : Str
  outputPdf : Option Str
  outDir : Option Str
  sampleSeconds : ℚ
  threshold : Int
  crop : Option (Int × Int × Int × Int)
  scaleWidth : Option Int
  maxPages : Option Int
  a4 : Bool
  autoTrim : Bool
  autoTrimRatio : ℚ
  autoTrimPad : Int
  autoTrimSides : Str
  autoCrop : Bool
  autoCropPad : Int
  autoCropMinArea : ℚ
deriving DecidableEq

/-- Environment of one worker run: the text of every input field, the
observations of the external collaborators (download engine, ffmpeg, video
capture, selection surface), and the filesystem-derived clip path. -/
structure WorkEnv where
  inputPath : Str
  startText : Str
  endText : Str
  clipPath : Str
  trimEnv : TrimEnv
  downloadOutcome : Except Str Str
  probe : ProbeOutcome
  outputText : Str
  outdirText : Str
  manualSelect : Bool
  roi : RoiOutcome
  sampleText : Str
  thresholdText : Str
  cropText : Str
  scaleWidthText : Str
  maxPagesText : Str
  a4 : Bool
  autoTrimFlag : Bool
  autoTrimRatioText : Str
  autoTrimPadText : Str
  autoTrimSidesText : Str
  autoCropFlag : Bool
  autoCropPadText : Str
  autoCropMinAreaText : Str

/-- Model of `float(text or default)` (a GUI field with a default: empty text
falls back to the default, anything else must convert). -/
def floatOrDefault (t : Str) (d : ℚ) : Except WorkErr ℚ :=
  if t = [] then .ok d
  else match pyFloat t with
    | some v => .ok v
    | none => .error (.convFailed t)

/-- Model of `int(text or default)`. -/
def intOrDefault (t : Str) (d : Int) : Except WorkErr Int :=
  if t = [] then .ok d
  else match pyInt t with
    | some v => .ok v
    | none => .error (.convFailed t)

/-- Model of `int(text) if text.strip() else None`. -/
def optIntField (t : Str) : Except WorkErr (Option Int) :=
  if pyStrip t = [] then .ok none
  else match pyInt t with
    | some v => .ok (some v)
    | none => .error (.convFailed t)

/-- Message of a malformed explicit region spec. -/
def cropSpecMsg : Str := "invalid crop spec".toList

/-- Modelled from the spec: `parse_crop` of the frame-extraction module
`video_to_pdf_phash`, which is imported at line 15 but is not under `src/`.
Spec §4.5 and §6: the explicit region spec is four comma-separated
non-negative integers `x,y,w,h`; a malformed spec fails with a region-spec
error; the caller passes absent for empty text, which yields no crop. -/
def parse_crop (t : Option Str) : Except Str (Option (Int × Int × Int × Int)) :=
  match t with
  | none => .ok none
  | some s =>
    match pySplit ',' s with
    | [a, b, c, d] =>
      match pyInt a, pyInt b, pyInt c, pyInt d with
      | some x, some y, some w, some h =>
        if 0 ≤ x ∧ 0 ≤ y ∧ 0 ≤ w ∧ 0 ≤ h then .ok (some (x, y, w, h)) else .error cropSpecMsg
      | _, _, _, _ => .error cropSpecMsg
    | _ => .error cropSpecMsg

/-- Values of the fallible conversions of the parameter block (lines
408-425), in the order the code performs them: sample seconds, threshold,
explicit crop spec, scale width, max pages, auto-trim ratio and pad,
auto-crop pad and min-area ratio. -/
structure ParamChecks where
  sample : ℚ
  thr : Int
  cropSpec : Option (Int × Int × Int × Int)
  sw : Option Int
  mp : Option Int
  atRatio : ℚ
  atPad : Int
  acPad : Int
  acMin : ℚ
deriving DecidableEq

/-- Fallible part of the parameter block of the worker (lines 408-425): each
conversion in source order; the first failure is the raised error. -/
def extractChecks (env : WorkEnv) : Except WorkErr ParamChecks :=
  match floatOrDefault env.sampleText (1 / 2 : ℚ) with
  | .error e => .error e
  | .ok sample =>
  match intOrDefault env.thresholdText 10 with
  | .error e => .error e
  | .ok thr =>
  match parse_crop (if pyStrip env.cropText = [] then none else some (pyStrip env.cropText)) with
  | .error m => .error (.cropSpec m)
  | .ok cropSpec =>
  match optIntField env.scaleWidthText with
  | .error e => .error e
  | .ok sw =>
  match optIntField env.maxPagesText with
  | .error e => .error e
  | .ok mp =>
  match floatOrDefault env.autoTrimRatioText (49 / 50 : ℚ) with
  | .error e => .error e
  | .ok atRatio =>
  match intOrDefault env.autoTrimPadText 6 with
  | .error e => .error e
  | .ok atPad =>
  match intOrDefault env.autoCropPadText 6 with
  | .error e => .error e
  | .ok acPad =>
  match floatOrDefault env.autoCropMinAreaText (1 / 20 : ℚ) with
  | .error e => .error e
  | .ok acMin =>
    .ok { sample := sample, thr := thr, cropSpec := cropSpec, sw := sw, mp := mp,
          atRatio := atRatio, atPad := atPad, acPad := acPad, acMin := acMin }

/-- Embedding of the parameter block of the worker (lines 382-425): output
defaults, numeric fields with defaults, explicit crop spec, manual-crop
override (line 412-413), and the execution-time forcing of `auto_crop` to
`False` when a manual crop is present (line 423). -/
def extractOptions (env : WorkEnv) (inputP : Str)
    (manualCrop : Option (Int × Int × Int × Int)) : Except WorkErr ExtractArgs :=
  (extractChecks env).map fun c =>
    { videoPath := inputP
      outputPdf := if pyStrip env.outputText = [] then none else some (pyStrip env.outputText)
      outDir := if pyStrip env.outdirText = [] then none else some (pyStrip env.outdirText)
      sampleSeconds := c.sample
      threshold := c.thr
      crop := if manualCrop.isSome then manualCrop else c.cropSpec
      scaleWidth := c.sw
      maxPages := c.mp
      a4 := env.a4
      autoTrim := env.autoTrimFlag
      autoTrimRatio := c.atRatio
      autoTrimPad := c.atPad
      autoTrimSides := if env.autoTrimSidesText = [] then "tb".toList else env.autoTrimSidesText
      autoCrop := if manualCrop.isSome then false else env.autoCropFlag
      autoCropPad := c.acPad
      autoCropMinArea := c.acMin }

/-- Observable outcome of one worker run: whether the download stage ran,
whether the trimmer was invoked, the ffmpeg command lines run, the log lines
put on the progress queue by the probe and selection blocks, and the final
result (the extraction call or the raised error). -/
structure WorkOutcome where
  downloadCalled : Bool
  trimInvoked : Bool
  ffmpegCalls : List (List Str)
  logs : List Str
  result : Except WorkErr ExtractArgs

/-- Log lines of the probe block (line 378). -/
def probeLogs (p : ProbeOutcome) : List Str :=
  match probeResolution p with
  | some (w, h) =>
    ["\n视频分辨率: ".toList ++ (Nat.repr w).toList ++ " x ".toList ++ (Nat.repr h).toList ++ "\n".toList]
  | none => []

/-- Log lines of the manual-selection block (lines 396-406). -/
def selectionLogs (manualSelect : Bool) (roi : RoiOutcome) : List Str :=
  if manualSelect then
    match roi with
    | .chosen x y w h =>
      if 0 < w ∧ 0 < h then
        ["请在弹出的窗口中框选 PPT 区域，按回车确认，Esc 取消。\n".toList,
         "已选择区域: x=".toList ++ (Int.repr x).toList ++ ", y=".toList ++ (Int.repr y).toList
           ++ ", w=".toList ++ (Int.repr w).toList ++ ", h=".toList ++ (Int.repr h).toList
           ++ "\n".toList]
      else
        ["请在弹出的窗口中框选 PPT 区域，按回车确认，Esc 取消。\n".toList,
         "已取消框选，继续使用原设置。\n".toList]
    | .frameReadFailed =>
      ["框选失败: 无法读取视频首帧用于框选\n".toList]
    | .raised => ["框选失败\n".toList]
  else []

/-- Stages of the worker after the trim stage: probe (never fatal), manual
selection (never fatal), parameter parsing, extraction call. -/
def workAfterTrim (env : WorkEnv) (inputP : Str) (dlCalled trimInvoked : Bool)
    (calls : List (List Str)) : WorkOutcome :=
  let manualCrop := manualCropOf env.manualSelect env.roi
  { downloadCalled := dlCalled
    trimInvoked := trimInvoked
    ffmpegCalls := calls
    logs := probeLogs env.probe ++ selectionLogs env.manualSelect env.roi
    result := extractOptions env inputP manualCrop }

/-- Stages of the worker from time parsing on (lines 343-364): parse the two
time fields, and when at least one bound is present validate the range and
invoke the trimmer before continuing. -/
def workFromLocal (env : WorkEnv) (inputP : Str) (dlCalled : Bool) : WorkOutcome :=
  match parseTimeToSeconds env.startText with
  | .error h =>
    { downloadCalled := dlCalled, trimInvoked := false, ffmpegCalls := [], logs := [],
      result := .error (.startTimeFormat h) }
  | .ok startS =>
    match parseTimeToSeconds env.endText with
    | .error h =>
      { downloadCalled := dlCalled, trimInvoked := false, ffmpegCalls := [], logs := [],
        result := .error (.endTimeFormat h) }
    | .ok endS =>
      if startS.isSome ∨ endS.isSome then
        let rangeBad :=
          match endS, startS with
          | some e, some s => decide (e ≤ s)
          | _, _ => false
        if rangeBad then
          { downloadCalled := dlCalled, trimInvoked := false, ffmpegCalls := [], logs := [],
            result := .error .invalidRange }
        else
          let t := trimVideoWithFfmpeg env.trimEnv inputP env.clipPath startS endS
          match t.result with
          | .error e =>
            { downloadCalled := dlCalled, trimInvoked := true, ffmpegCalls := t.calls,
              logs := [], result := .error (.trim e) }
          | .ok _ => workAfterTrim env env.clipPath dlCalled true t.calls
      else workAfterTrim env inputP dlCalled false []

/-- Embedding of `App._on_run.work` (lines 304-452): URL detection, optional
download, time parsing and range validation, optional trim, best-effort probe
and manual selection, parameter parsing, extraction call.  Any raised error is
caught at line 448 and becomes the terminal error result. -/
def work (env : WorkEnv) : WorkOutcome :=
  if isUrlInput env.inputPath then
    match env.downloadOutcome with
    | .error m =>
      { downloadCalled := true, trimInvoked := false, ffmpegCalls := [], logs := [],
        result := .error (.downloadFailed m) }
    | .ok p => workFromLocal env p true
  else workFromLocal env env.inputPath false

/-! ### Auxiliary predicates and concrete fixtures used by the statements -/

/-- Success criterion applied to each ffmpeg invocation (line 117 / line 122,
negated): exit code zero, output file exists, output file size positive. -/
def runOk (r : RunResult) : Prop := r.returncode = 0 ∧ r.dstExists = true ∧ 0 < r.dstSize

instance (r : RunResult) : Decidable (runOk r) := by unfold runOk; infer_instance

/-- The two strings `a` and `b` occur adjacently, in this order, in `l`. -/
def adjacentIn (a b : Str) (l : List Str) : Prop := ∃ l1 l2, l = l1 ++ a :: b :: l2

/-- The run reaches the time-parsing stage: a remote input implies the
download stage succeeded. -/
def downloadOkIfUrl (env : WorkEnv) : Prop :=
  isUrlInput env.inputPath = true → ∃ p, env.downloadOutcome = .ok p

/-- Benign concrete worker environment used by witnesses: local input, no
time bounds, all fields at their defaults, all collaborators succeed. -/
def sampleEnv : WorkEnv :=
  { inputPath := "v.mp4".toList
    startText := []
    endText := []
    clipPath := "v.clip.mp4".toList
    trimEnv :=
      { ffmpegPath := some "/usr/bin/ffmpeg".toList
        fastResult := { returncode := 0, dstExists := true, dstSize := 1 }
        slowResult := { returncode := 0, dstExists := true, dstSize := 1 } }
    downloadOutcome := .ok "dl.mp4".toList
    probe := .notOpened
    outputText := []
    outdirText := []
    manualSelect := false
    roi := .raised
    sampleText := []
    thresholdText := []
    cropText := []
    scaleWidthText := []
    maxPagesText := []
    a4 := false
    autoTrimFlag := true
    autoTrimRatioText := []
    autoTrimPadText := []
    autoTrimSidesText := []
    autoCropFlag := true
    autoCropPadText := []
    autoCropMinAreaText := [] }

/-- Concrete naming-template path function used by witnesses in place of
`ydl.prepare_filename`. -/
def prepW : PrepTarget → Str := fun _ => "template.mp4".toList

/-- Error component of a worker result. -/
def errOf : Except WorkErr ExtractArgs → Option WorkErr
  | .error e => some e
  | .ok _ => none

/-- Error raised by the parameter-conversion block, if any. -/
def errOfChecks (env : WorkEnv) : Option WorkErr :=
  match extractChecks env with
  | .error e => some e
  | .ok _ => none

/-- Control data of the worker from the time-parsing stage on (download flag,
trimmer invocation, ffmpeg command lines, raised error): the same case
structure as `workFromLocal`, but reading neither the probe nor the selection
outcome. -/
def workControlLocal (env : WorkEnv) (inputP : Str) (dl : Bool) :
    Bool × Bool × List (List Str) × Option WorkErr :=
  match parseTimeToSeconds env.startText with
  | .error h => (dl, false, [], some (.startTimeFormat h))
  | .ok startS =>
    match parseTimeToSeconds env.endText with
    | .error h => (dl, false, [], some (.endTimeFormat h))
    | .ok endS =>
      if startS.isSome ∨ endS.isSome then
        if (match endS, startS with
            | some e, some s => decide (e ≤ s)
            | _, _ => false) then
          (dl, false, [], some .invalidRange)
        else
          let t := trimVideoWithFfmpeg env.trimEnv inputP env.clipPath startS endS
          match t.result with
          | .error e => (dl, true, t.calls, some (.trim e))
          | .ok _ => (dl, true, t.calls, errOfChecks env)
      else (dl, false, [], errOfChecks env)

/-- Control data of one whole worker run; independent of the probe and
selection outcomes by construction. -/
def workControl (env : WorkEnv) : Bool × Bool × List (List Str) × Option WorkErr :=
  if isUrlInput env.inputPath then
    match env.downloadOutcome with
    | .error m => (true, false, [], some (.downloadFailed m))
    | .ok p => workControlLocal env p true
  else workControlLocal env env.inputPath false

/-- Two worker outcomes agree on everything but the by-product data of the
best-effort stages: same download decision, same trimmer activity, same
ffmpeg invocations, and the same raised error (if any). -/
def sameControl (o1 o2 : WorkOutcome) : Prop :=
  o1.downloadCalled = o2.downloadCalled
    ∧ o1.trimInvoked = o2.trimInvoked
    ∧ o1.ffmpegCalls = o2.ffmpegCalls
    ∧ ∀ err : WorkErr, (o1.result = .error err ↔ o2.result = .error err)

/-- The extraction arguments produced by a run over `sampleEnv`. -/
def sampleArgs : ExtractArgs :=
  { videoPath := "v.mp4".toList
    outputPdf := none
    outDir := none
    sampleSeconds := (1 / 2 : ℚ)
    threshold := 10
    crop := none
    scaleWidth := none
    maxPages := none
    a4 := false
    autoTrim := true
    autoTrimRatio := (49 / 50 : ℚ)
    autoTrimPad := 6
    autoTrimSides := "tb".toList
    autoCrop := true
    autoCropPad := 6
    autoCropMinArea := (1 / 20 : ℚ) }

/-- Concrete trim environment used by witnesses: the fast attempt exits zero
but leaves a zero-byte file; the re-encode attempt succeeds. -/
def c1Env : TrimEnv :=
  { ffmpegPath := some "/usr/bin/ffmpeg".toList
    fastResult := { returncode := 0, dstExists := true, dstSize := 0 }
    slowResult := { returncode := 0, dstExists := true, dstSize := 1 } }

/-! ## Helper lemmas -/

theorem dropWhile_eq_self_of_false {p : Char → Bool} {l : Str}
    (h : ∀ c ∈ l, p c = false) : l.dropWhile p = l := by
  cases l with
  | nil => rfl
  | cons a t => simp [List.dropWhile_cons, h a (List.mem_cons_self a t)]

theorem takeWhile_eq_self_of_true {p : Char → Bool} {l : Str}
    (h : ∀ c ∈ l, p c = true) : l.takeWhile p = l := by
  induction l with
  | nil => rfl
  | cons a t ih =>
    simp [List.takeWhile_cons, h a (List.mem_cons_self a t),
      ih fun c hc => h c (List.mem_cons_of_mem a hc)]

theorem dropWhile_eq_nil_of_true {p : Char → Bool} {l : Str}
    (h : ∀ c ∈ l, p c = true) : l.dropWhile p = [] := by
  induction l with
  | nil => rfl
  | cons a t ih =>
    simp [List.dropWhile_cons, h a (List.mem_cons_self a t),
      ih fun c hc => h c (List.mem_cons_of_mem a hc)]

theorem pyStrip_eq_self {s : Str} (h : ∀ c ∈ s, pyIsSpace c = false) : pyStrip s = s := by
  unfold pyStrip
  rw [dropWhile_eq_self_of_false h,
    dropWhile_eq_self_of_false fun c hc => h c (List.mem_reverse.mp hc),
    List.reverse_reverse]

theorem isDigitC_iff {c : Char} : isDigitC c = true ↔ 48 ≤ c.toNat ∧ c.toNat ≤ 57 := by
  simp [isDigitC]

theorem pyIsSpace_eq_false_of_digit {c : Char} (h : isDigitC c = true) : pyIsSpace c = false := by
  rw [isDigitC_iff] at h
  simp only [pyIsSpace, Bool.or_eq_false_iff, decide_eq_false_iff_not]
  omega

theorem digits_no_space {s : Str} (h : s.all isDigitC = true) :
    ∀ c ∈ s, pyIsSpace c = false :=
  fun c hc => pyIsSpace_eq_false_of_digit ((List.all_eq_true.mp h) c hc)

theorem pyStrip_digits {s : Str} (h : s.all isDigitC = true) : pyStrip s = s :=
  pyStrip_eq_self (digits_no_space h)

theorem unsignedDigits_of_digits {s : Str} (h1 : s ≠ []) (h2 : s.all isDigitC = true) :
    unsignedDigits s = some (digitsVal s) := by
  simp [unsignedDigits, h1, h2]

theorem head_digit_ne_plus {c : Char} (h : isDigitC c = true) : c ≠ '+' := by
  rw [isDigitC_iff] at h
  intro he
  subst he
  exact absurd h (by decide)

theorem head_digit_ne_minus {c : Char} (h : isDigitC c = true) : c ≠ '-' := by
  rw [isDigitC_iff] at h
  intro he
  subst he
  exact absurd h (by decide)

theorem signedDigits_of_digits {s : Str} (h1 : s ≠ []) (h2 : s.all isDigitC = true) :
    signedDigits s = some ((digitsVal s : Int)) := by
  cases s with
  | nil => exact absurd rfl h1
  | cons c t =>
    have hc : isDigitC c = true := (List.all_eq_true.mp h2) c (List.mem_cons_self c t)
    simp [signedDigits, head_digit_ne_plus hc, head_digit_ne_minus hc,
      unsignedDigits_of_digits (show c :: t ≠ [] by simp) h2]

theorem pyInt_of_digits {s : Str} (h1 : s ≠ []) (h2 : s.all isDigitC = true) :
    pyInt s = some ((digitsVal s : Int)) := by
  unfold pyInt
  rw [pyStrip_digits h2]
  exact signedDigits_of_digits h1 h2

theorem pyFloatUnsigned_of_digits {s : Str} (h1 : s ≠ []) (h2 : s.all isDigitC = true) :
    pyFloatUnsigned s = some ((digitsVal s : ℚ)) := by
  unfold pyFloatUnsigned
  rw [takeWhile_eq_self_of_true (List.all_eq_true.mp h2),
    dropWhile_eq_nil_of_true (List.all_eq_true.mp h2)]
  simp [h1]

theorem pyFloat_of_digits {s : Str} (h1 : s ≠ []) (h2 : s.all isDigitC = true) :
    pyFloat s = some ((digitsVal s : ℚ)) := by
  unfold pyFloat
  rw [pyStrip_digits h2]
  cases s with
  | nil => exact absurd rfl h1
  | cons c t =>
    have hc : isDigitC c = true := (List.all_eq_true.mp h2) c (List.mem_cons_self c t)
    simp [head_digit_ne_plus hc, head_digit_ne_minus hc,
      pyFloatUnsigned_of_digits h1 h2]

theorem pySplit_ne_nil (sep : Char) (s : Str) : pySplit sep s ≠ [] := by
  induction s with
  | nil => simp [pySplit]
  | cons c t ih =>
    unfold pySplit
    by_cases h : c = sep
    · simp [h]
    · rw [if_neg h]
      cases hps : pySplit sep t <;> simp

theorem pySplit_no_sep {sep : Char} {s : Str} (h : sep ∉ s) : pySplit sep s = [s] := by
  induction s with
  | nil => rfl
  | cons c t ih =>
    have hc : c ≠ sep := fun he => h (by simp [← he])
    have ht : sep ∉ t := fun hm => h (List.mem_cons_of_mem c hm)
    unfold pySplit
    rw [if_neg hc, ih ht]

theorem pySplit_append {sep : Char} {a b : Str} (h : sep ∉ a) :
    pySplit sep (a ++ sep :: b) = a :: pySplit sep b := by
  induction a with
  | nil => simp [pySplit]
  | cons c t ih =>
    have hc : c ≠ sep := fun he => h (by simp [← he])
    have ht : sep ∉ t := fun hm => h (List.mem_cons_of_mem c hm)
    simp only [List.cons_append]
    unfold pySplit
    rw [if_neg hc, ih ht]
    simp
    cases b with
    | nil => simp [pySplit]
    | cons d r => simp [pySplit]

theorem sep_not_mem_digits {sep : Char} {s : Str} (h : s.all isDigitC = true)
    (hsep : isDigitC sep = false) : sep ∉ s := by
  intro hm
  have := (List.all_eq_true.mp h) sep hm
  simp [this] at hsep

theorem parse_absent_iff {t : Str} : parseTimeToSeconds t = .ok none ↔ pyStrip t = [] := by
  constructor
  · intro h
    by_contra hne
    simp only [parseTimeToSeconds] at h
    rw [if_neg hne] at h
    split at h <;> try split at h
    all_goals simp_all
  · intro h
    simp [parseTimeToSeconds, h]

theorem parse_single_digits {d : Str} (h1 : d ≠ []) (h2 : d.all isDigitC = true) :
    parseTimeToSeconds d = .ok (some ((digitsVal d : ℚ))) := by
  have hstrip := pyStrip_digits h2
  have hsep : (':' : Char) ∉ d := sep_not_mem_digits h2 (by decide)
  have hsplit := pySplit_no_sep hsep
  simp [parseTimeToSeconds, hstrip, h1, hsplit, pyFloat_of_digits h1 h2]

theorem parse_two_digits {m s : Str} (hm1 : m ≠ []) (hm2 : m.all isDigitC = true)
    (hs1 : s ≠ []) (hs2 : s.all isDigitC = true) :
    parseTimeToSeconds (m ++ ':' :: s)
      = .ok (some ((digitsVal m : ℚ) * 60 + (digitsVal s : ℚ))) := by
  have hns : ∀ c ∈ m ++ ':' :: s, pyIsSpace c = false := by
    intro c hc
    rcases List.mem_append.mp hc with h | h
    · exact digits_no_space hm2 c h
    · rcases List.mem_cons.mp h with rfl | h
      · decide
      · exact digits_no_space hs2 c h
  have hstrip := pyStrip_eq_self hns
  have hsplit : pySplit ':' (m ++ ':' :: s) = [m, s] := by
    rw [pySplit_append (sep_not_mem_digits hm2 (by decide)),
      pySplit_no_sep (sep_not_mem_digits hs2 (by decide))]
  simp [parseTimeToSeconds, hstrip, hsplit, pyInt_of_digits hm1 hm2, pyFloat_of_digits hs1 hs2]

theorem parse_three_digits {hh mm ss : Str} (hh1 : hh ≠ []) (hh2 : hh.all isDigitC = true)
    (hm1 : mm ≠ []) (hm2 : mm.all isDigitC = true)
    (hs1 : ss ≠ []) (hs2 : ss.all isDigitC = true) :
    parseTimeToSeconds (hh ++ ':' :: (mm ++ ':' :: ss))
      = .ok (some ((digitsVal hh : ℚ) * 3600 + (digitsVal mm : ℚ) * 60 + (digitsVal ss : ℚ))) := by
  have hns : ∀ c ∈ hh ++ ':' :: (mm ++ ':' :: ss), pyIsSpace c = false := by
    intro c hc
    rcases List.mem_append.mp hc with h | h
    · exact digits_no_space hh2 c h
    · rcases List.mem_cons.mp h with rfl | h
      · decide
      · rcases List.mem_append.mp h with h | h
        · exact digits_no_space hm2 c h
        · rcases List.mem_cons.mp h with rfl | h
          · decide
          · exact digits_no_space hs2 c h
  have hstrip := pyStrip_eq_self hns
  have hsplit : pySplit ':' (hh ++ ':' :: (mm ++ ':' :: ss)) = [hh, mm, ss] := by
    rw [pySplit_append (sep_not_mem_digits hh2 (by decide)),
      pySplit_append (sep_not_mem_digits hm2 (by decide)),
      pySplit_no_sep (sep_not_mem_digits hs2 (by decide))]
  simp [parseTimeToSeconds, hstrip, hsplit, pyInt_of_digits hh1 hh2,
    pyInt_of_digits hm1 hm2, pyFloat_of_digits hs1 hs2]

theorem parse_many_colons {t : Str} (h : 3 < (pySplit ':' (pyStrip t)).length) :
    parseTimeToSeconds t = .error timeFormatHint := by
  have hne : pyStrip t ≠ [] := by
    intro he
    rw [he] at h
    simp [pySplit] at h
  simp only [parseTimeToSeconds]
  rw [if_neg hne]
  rcases hl : pySplit ':' (pyStrip t) with _ | ⟨a, tl⟩
  · exact absurd hl (pySplit_ne_nil _ _)
  · rcases tl with _ | ⟨b, tl2⟩
    · rw [hl] at h; simp at h
    · rcases tl2 with _ | ⟨c, tl3⟩
      · rw [hl] at h; simp at h
      · rcases tl3 with _ | ⟨d, rest⟩
        · rw [hl] at h; simp at h
        · simp

theorem parse_0130 : parseTimeToSeconds "01:30".toList = .ok (some 90) := by
  rw [show ("01:30".toList : Str) = "01".toList ++ ':' :: "30".toList from rfl,
    parse_two_digits (by decide) (by decide) (by decide) (by decide),
    show digitsVal "01".toList = 1 from rfl, show digitsVal "30".toList = 30 from rfl]
  norm_num

/-- C3: the time parser yields absent exactly on whitespace-only input;
a one-part numeric input parses to its value, a two-part input `M:S` to
`60*M + S`, a three-part input `H:M:S` to `3600*H + 60*M + S` (so `"90"` and
`"01:30"` both parse to `90`); and any other shape — more than three
colon-separated parts, non-numeric components, fractional minutes — fails
with the grammar-hint error. -/
theorem claim_C3_time_grammar :
    (∀ t : Str, parseTimeToSeconds t = .ok none ↔ pyStrip t = [])
    ∧ (∀ d : Str, d ≠ [] → d.all isDigitC = true →
        parseTimeToSeconds d = .ok (some ((digitsVal d : ℚ))))
    ∧ (∀ m s : Str, m ≠ [] → m.all isDigitC = true → s ≠ [] → s.all isDigitC = true →
        parseTimeToSeconds (m ++ ':' :: s)
          = .ok (some ((digitsVal m : ℚ) * 60 + (digitsVal s : ℚ))))
    ∧ (∀ hh mm ss : Str, hh ≠ [] → hh.all isDigitC = true → mm ≠ [] → mm.all isDigitC = true →
        ss ≠ [] → ss.all isDigitC = true →
        parseTimeToSeconds (hh ++ ':' :: (mm ++ ':' :: ss))
          = .ok (some ((digitsVal hh : ℚ) * 3600 + (digitsVal mm : ℚ) * 60 + (digitsVal ss : ℚ))))
    ∧ parseTimeToSeconds "90".toList = .ok (some 90)
    ∧ parseTimeToSeconds "01:30".toList = .ok (some 90)
    ∧ (∀ t : Str, 3 < (pySplit ':' (pyStrip t)).length →
        parseTimeToSeconds t = .error timeFormatHint)
    ∧ parseTimeToSeconds "1:2:3:4".toList = .error timeFormatHint
    ∧ parseTimeToSeconds "ab".toList = .error timeFormatHint
    ∧ parseTimeToSeconds "1.5:30".toList = .error timeFormatHint := by
  refine ⟨fun t => parse_absent_iff, fun d h1 h2 => parse_single_digits h1 h2,
    fun m s a b c d => parse_two_digits a b c d,
    fun hh mm ss a b c d e f => parse_three_digits a b c d e f,
    by rfl, parse_0130, fun t h => parse_many_colons h, by rfl, by rfl, by rfl⟩

/-- Witness for C3: the two-part rule applied at `"01:30"`. -/
theorem claim_C3_witness :
    parseTimeToSeconds ("01".toList ++ ':' :: "30".toList)
      = .ok (some ((digitsVal "01".toList : ℚ) * 60 + (digitsVal "30".toList : ℚ))) :=
  claim_C3_time_grammar.2.2.1 "01".toList "30".toList (by decide) (by decide) (by decide) (by decide)

theorem not_runOk_iff (r : RunResult) :
    (r.returncode ≠ 0 ∨ r.dstExists = false ∨ r.dstSize = 0) ↔ ¬ runOk r := by
  rcases r with ⟨rc, ex, sz⟩
  cases ex <;> simp [runOk]
  omega

/-- C1: with the tool present, the fast stream-copy attempt is judged
successful exactly by `exit code 0 ∧ output exists ∧ size > 0`; the re-encode
attempt runs (a second ffmpeg call) exactly when that criterion fails — in
particular a zero exit code with a zero-byte output still triggers it; the
whole trim succeeds exactly when either attempt meets the criterion, and
raises the trim-failed error exactly when both fail. -/
theorem claim_C1_trim_success_criterion (env : TrimEnv) (src dst : Str)
    (startS endS : Option ℚ) (f : Str) (hf : env.ffmpegPath = some f) :
    ((trimVideoWithFfmpeg env src dst startS endS).calls.length = 1 ↔ runOk env.fastResult)
    ∧ ((trimVideoWithFfmpeg env src dst startS endS).calls.length = 2 ↔ ¬ runOk env.fastResult)
    ∧ ((trimVideoWithFfmpeg env src dst startS endS).result = .ok ()
        ↔ (runOk env.fastResult ∨ runOk env.slowResult))
    ∧ ((trimVideoWithFfmpeg env src dst startS endS).result = .error .trimFailed
        ↔ (¬ runOk env.fastResult ∧ ¬ runOk env.slowResult)) := by
  unfold trimVideoWithFfmpeg
  rw [hf]
  simp only []
  by_cases h1 : runOk env.fastResult
  · have h1' := h1
    unfold runOk at h1'
    rw [if_pos h1']
    simp [h1]
  · have h1' := h1
    unfold runOk at h1'
    rw [if_neg h1']
    by_cases h2 : runOk env.slowResult
    · rw [if_neg fun hd => (not_runOk_iff env.slowResult).mp hd h2]
      simp [h1, h2]
    · rw [if_pos ((not_runOk_iff env.slowResult).mpr h2)]
      simp [h1, h2]

/-- Witness for C1: a concrete zero-exit zero-byte fast attempt triggers the
second (re-encode) invocation. -/
theorem claim_C1_witness :
    (trimVideoWithFfmpeg c1Env "in.mp4".toList "out.mp4".toList none none).calls.length = 2 :=
  ((claim_C1_trim_success_criterion c1Env "in.mp4".toList "out.mp4".toList none none
    "/usr/bin/ffmpeg".toList rfl).2.1).mpr (by decide)

/-- C4: a quality string `<digits>p` whose digits denote a positive height H
produces the format query with the height bound H on both the video-only and
the combined branch; any quality string not of that shape (including `best`,
and `0p` by Python truthiness of `max_height`) produces the unconstrained
query `bv*+ba/b`. -/
theorem claim_C4_quality_selector :
    (∀ d : Str, d ≠ [] → d.all isDigitC = true → 0 < digitsVal d →
      formatSelectorOf (d ++ ['p'])
        = "bv*[height<=?".toList ++ (Nat.repr (digitsVal d)).toList
          ++ "]+ba/b[height<=?".toList ++ (Nat.repr (digitsVal d)).toList ++ "]".toList)
    ∧ (∀ q : Str,
        (∀ d : Str, d ≠ [] → d.all isDigitC = true → 0 < digitsVal d → q ≠ d ++ ['p']) →
        formatSelectorOf q = fmtUnbounded)
    ∧ formatSelectorOf "best".toList = fmtUnbounded
    ∧ formatSelectorOf "0p".toList = fmtUnbounded := by
  refine ⟨?_, ?_, by rfl, by rfl⟩
  · intro d h1 h2 h3
    have hmax : maxHeightOf (d ++ ['p']) = some (digitsVal d) := by
      unfold maxHeightOf
      rw [if_pos]
      · rw [List.dropLast_concat]
      · refine ⟨by simp, ?_, ?_, ?_⟩
        · rw [List.getLast?_concat]
        · rw [List.dropLast_concat]; exact h1
        · rw [List.dropLast_concat]; exact h2
    unfold formatSelectorOf
    rw [hmax]
    simp only []
    rw [if_pos (Nat.pos_iff_ne_zero.mp h3)]
    rfl
  · intro q hq
    unfold formatSelectorOf maxHeightOf
    by_cases hcond : (q ≠ [] ∧ q.getLast? = some 'p' ∧ q.dropLast ≠ [] ∧ q.dropLast.all isDigitC)
    · rw [if_pos hcond]
      obtain ⟨hne, hlast, hdne, hdall⟩ := hcond
      have hq_eq : q = q.dropLast ++ ['p'] := by
        have hgl := List.getLast?_eq_getLast q hne
        rw [hgl] at hlast
        conv_lhs => rw [← List.dropLast_append_getLast hne]
        rw [Option.some.inj hlast]
      simp only []
      by_cases hz : digitsVal q.dropLast = 0
      · rw [hz]
        simp
      · exact absurd hq_eq (hq q.dropLast hdne hdall (Nat.pos_of_ne_zero hz))
    · rw [if_neg hcond]

/-- Witness for C4: quality `"720p"` yields the query bounded by 720 on both
branches. -/
theorem claim_C4_witness :
    formatSelectorOf ("720".toList ++ ['p'])
      = "bv*[height<=?".toList ++ (Nat.repr (digitsVal "720".toList)).toList
        ++ "]+ba/b[height<=?".toList ++ (Nat.repr (digitsVal "720".toList)).toList ++ "]".toList :=
  claim_C4_quality_selector.1 "720".toList (by decide) (by decide) (by decide)

/-- C8: a non-dictionary metadata result fails with the download error; a
dictionary with a non-empty entries list is resolved from its first entry
alone (the tail and the top-level requested-downloads are irrelevant),
preferring the entry's requested-downloads filepath and falling back to the
naming template; a dictionary without entries (or with an empty entries list)
prefers its own requested-downloads filepath and falls back to the naming
template. -/
theorem claim_C8_download_path_resolution (prep : PrepTarget → Str) :
    resolveDownloadedPath prep .notDict = .error downloadErrMsg
    ∧ (∀ (e : DlEntry) (rest : List DlEntry) (rd rd2 : List Str),
        resolveDownloadedPath prep (.dict { entries := some (e :: rest), requestedDownloads := rd })
          = resolveDownloadedPath prep (.dict { entries := some [e], requestedDownloads := rd2 }))
    ∧ (∀ (e : DlEntry) (rest : List DlEntry) (rd : List Str) (r : Str) (rs : List Str),
        e.isDict = true → e.requestedDownloads = r :: rs →
        resolveDownloadedPath prep (.dict { entries := some (e :: rest), requestedDownloads := rd })
          = .ok r)
    ∧ (∀ (e : DlEntry) (rest : List DlEntry) (rd : List Str),
        e.isDict = false ∨ e.requestedDownloads = [] →
        resolveDownloadedPath prep (.dict { entries := some (e :: rest), requestedDownloads := rd })
          = .ok (prep (.entry e)))
    ∧ (∀ (ent : Option (List DlEntry)) (r : Str) (rs : List Str),
        ent = none ∨ ent = some [] →
        resolveDownloadedPath prep (.dict { entries := ent, requestedDownloads := r :: rs })
          = .ok r)
    ∧ (∀ ent : Option (List DlEntry), ent = none ∨ ent = some [] →
        resolveDownloadedPath prep (.dict { entries := ent, requestedDownloads := [] })
          = .ok (prep .top)) := by
  refine ⟨rfl, ?_, ?_, ?_, ?_, ?_⟩
  · intro e rest rd rd2
    rcases e with ⟨b, rds⟩
    cases b <;> cases rds <;> rfl
  · intro e rest rd r rs hb hrd
    rcases e with ⟨b, rds⟩
    simp only at hb hrd
    subst hb
    subst hrd
    rfl
  · intro e rest rd h
    rcases e with ⟨b, rds⟩
    rcases h with h | h
    · simp only at h
      subst h
      rfl
    · simp only at h
      subst h
      cases b <;> rfl
  · intro ent r rs h
    rcases h with rfl | rfl <;> rfl
  · intro ent h
    rcases h with rfl | rfl <;> rfl

/-- Witness for C8: a playlist result whose first entry reports a
requested-downloads filepath resolves to that filepath. -/
theorem claim_C8_witness :
    resolveDownloadedPath prepW
      (.dict { entries := some [{ isDict := true, requestedDownloads := ["a.mp4".toList] }],
               requestedDownloads := [] })
      = .ok "a.mp4".toList :=
  (claim_C8_download_path_resolution prepW).2.2.1
    { isDict := true, requestedDownloads := ["a.mp4".toList] } [] [] "a.mp4".toList [] rfl rfl

/-- C5: pressing run while the single worker handle holds an alive worker is
rejected with the busy signal and changes nothing (no worker started, nothing
queued — the state is unchanged); conversely a run only starts when no alive
worker exists. -/
theorem claim_C5_single_concurrent_run :
    (∀ (st : AppGuard) (input : Str), st.workerExists = true → st.workerAlive = true →
      onRunGuard st input = (.busyRejected, st))
    ∧ (∀ (st : AppGuard) (input : Str), (onRunGuard st input).1 = .started →
      ¬(st.workerExists = true ∧ st.workerAlive = true)) := by
  constructor
  · intro st input h1 h2
    simp [onRunGuard, h1, h2]
  · intro st input h hc
    simp [onRunGuard, hc.1, hc.2] at h

/-- Witness for C5: a concrete alive-worker state rejects a new run and is
left unchanged. -/
theorem claim_C5_witness :
    onRunGuard { workerExists := true, workerAlive := true } "v.mp4".toList
      = (.busyRejected, { workerExists := true, workerAlive := true }) :=
  claim_C5_single_concurrent_run.1 { workerExists := true, workerAlive := true }
    "v.mp4".toList rfl rfl

theorem extractOptions_ok_fields {env : WorkEnv} {p : Str} {mc : Option (Int × Int × Int × Int)}
    {args : ExtractArgs} (h : extractOptions env p mc = .ok args) :
    args.autoCrop = (if mc.isSome then false else env.autoCropFlag)
    ∧ ∃ c, extractChecks env = .ok c ∧ args.crop = (if mc.isSome then mc else c.cropSpec) := by
  unfold extractOptions at h
  cases hc : extractChecks env with
  | error e =>
    rw [hc] at h
    simp [Except.map] at h
  | ok c =>
    rw [hc] at h
    simp only [Except.map] at h
    injection h with h2
    subst h2
    exact ⟨rfl, c, rfl, rfl⟩

theorem workFromLocal_ok_extract {env : WorkEnv} {p : Str} {dl : Bool} {args : ExtractArgs}
    (h : (workFromLocal env p dl).result = .ok args) :
    ∃ q, extractOptions env q (manualCropOf env.manualSelect env.roi) = .ok args := by
  unfold workFromLocal workAfterTrim at h
  cases hs : parseTimeToSeconds env.startText with
  | error m =>
    rw [hs] at h
    simp at h
  | ok startS =>
    rw [hs] at h
    cases he : parseTimeToSeconds env.endText with
    | error m =>
      rw [he] at h
      simp at h
    | ok endS =>
      rw [he] at h
      simp only [] at h
      rcases startS with _ | s <;> rcases endS with _ | e
      · rw [if_neg (by simp)] at h
        exact ⟨_, h⟩
      · rw [if_pos (by simp)] at h
        rw [if_neg (by simp)] at h
        cases ht : (trimVideoWithFfmpeg env.trimEnv p env.clipPath none (some e)).result with
        | error u => rw [ht] at h; simp at h
        | ok u => rw [ht] at h; exact ⟨_, h⟩
      · rw [if_pos (by simp)] at h
        rw [if_neg (by simp)] at h
        cases ht : (trimVideoWithFfmpeg env.trimEnv p env.clipPath (some s) none).result with
        | error u => rw [ht] at h; simp at h
        | ok u => rw [ht] at h; exact ⟨_, h⟩
      · rw [if_pos (by simp)] at h
        by_cases hle : e ≤ s
        · rw [if_pos (by simp [hle])] at h
          simp at h
        · rw [if_neg (by simp [hle])] at h
          cases ht : (trimVideoWithFfmpeg env.trimEnv p env.clipPath (some s) (some e)).result with
          | error u => rw [ht] at h; simp at h
          | ok u => rw [ht] at h; exact ⟨_, h⟩

theorem work_ok_extract {env : WorkEnv} {args : ExtractArgs}
    (h : (work env).result = .ok args) :
    ∃ q, extractOptions env q (manualCropOf env.manualSelect env.roi) = .ok args := by
  unfold work at h
  split at h
  · split at h
    · exact absurd h (by simp)
    · exact workFromLocal_ok_extract h
  · exact workFromLocal_ok_extract h

/-- C6: from any toggle state reachable by checkbutton clicks, auto-crop and
manual selection are never both enabled — enabling one clears the other at
the configuration level; and at execution time the auto-crop argument passed
to the extractor is `false` whenever a manual crop region was selected. -/
theorem claim_C6_region_modes_exclusive :
    (∀ s, ReachableToggle s → ¬(s.autoCrop = true ∧ s.manualSelect = true))
    ∧ (∀ s, (toggleAutoCrop s).autoCrop = true → (toggleAutoCrop s).manualSelect = false)
    ∧ (∀ s, (toggleManualSelect s).manualSelect = true → (toggleManualSelect s).autoCrop = false)
    ∧ (∀ (env : WorkEnv) (args : ExtractArgs), (work env).result = .ok args →
        (manualCropOf env.manualSelect env.roi).isSome = true → args.autoCrop = false) := by
  refine ⟨?_, ?_, ?_, ?_⟩
  · intro s hs
    induction hs with
    | init => simp [initToggles]
    | @step s e hs ih =>
      rcases s with ⟨ac, ms⟩
      cases e <;> cases ac <;> cases ms <;>
        simp_all [applyToggle, toggleAutoCrop, toggleManualSelect]
  · intro s
    rcases s with ⟨ac, ms⟩
    cases ac <;> simp [toggleAutoCrop]
  · intro s
    rcases s with ⟨ac, ms⟩
    cases ms <;> simp [toggleManualSelect]
  · intro env args h hmc
    obtain ⟨q, hq⟩ := work_ok_extract h
    have hfield := (extractOptions_ok_fields hq).1
    rw [hfield, if_pos hmc]

/-- Witness for C6: after clicking manual selection from the initial state,
the reachable state has auto-crop off; and a concrete run with a selected
manual rectangle passes `autoCrop = false` to the extractor. -/
theorem claim_C6_witness :
    ¬((applyToggle .manualSelectClick initToggles).autoCrop = true
      ∧ (applyToggle .manualSelectClick initToggles).manualSelect = true) :=
  claim_C6_region_modes_exclusive.1 (applyToggle .manualSelectClick initToggles)
    (.step .manualSelectClick .init)

theorem workFromLocal_downloadCalled (env : WorkEnv) (p : Str) (dl : Bool) :
    (workFromLocal env p dl).downloadCalled = dl := by
  unfold workFromLocal workAfterTrim
  cases hs : parseTimeToSeconds env.startText with
  | error m => rfl
  | ok startS =>
    simp only []
    cases he : parseTimeToSeconds env.endText with
    | error m => rfl
    | ok endS =>
      simp only []
      rcases startS with _ | s <;> rcases endS with _ | e
      · rw [if_neg (by simp)]
      · rw [if_pos (by simp), if_neg (by simp)]
        cases ht : (trimVideoWithFfmpeg env.trimEnv p env.clipPath none (some e)).result <;> rfl
      · rw [if_pos (by simp), if_neg (by simp)]
        cases ht : (trimVideoWithFfmpeg env.trimEnv p env.clipPath (some s) none).result <;> rfl
      · rw [if_pos (by simp)]
        by_cases hle : e ≤ s
        · rw [if_pos (by simp [hle])]
        · rw [if_neg (by simp [hle])]
          cases ht : (trimVideoWithFfmpeg env.trimEnv p env.clipPath (some s) (some e)).result <;> rfl

theorem work_downloadCalled (env : WorkEnv) :
    (work env).downloadCalled = isUrlInput env.inputPath := by
  unfold work
  by_cases hu : isUrlInput env.inputPath = true
  · rw [if_pos hu, hu]
    cases hdl : env.downloadOutcome with
    | error m => rfl
    | ok p => simp only []; rw [workFromLocal_downloadCalled]
  · rw [if_neg hu]
    rw [workFromLocal_downloadCalled]
    simp only [Bool.not_eq_true] at hu
    rw [hu]

/-- C10: the worker runs the download stage exactly when the lowercased
operator input starts with `http://` or `https://`; any other input —
including other schemes such as `ftp://` and bare domain names — is treated
as a local path and the download stage is skipped. -/
theorem claim_C10_url_detection :
    (∀ env : WorkEnv, (work env).downloadCalled = true
      ↔ (List.isPrefixOf "http://".toList (env.inputPath.map pyToLower) = true
        ∨ List.isPrefixOf "https://".toList (env.inputPath.map pyToLower) = true))
    ∧ isUrlInput "HTTP://HOST/A.MP4".toList = true
    ∧ isUrlInput "ftp://host/f.mp4".toList = false
    ∧ isUrlInput "example.com/v.mp4".toList = false := by
  refine ⟨?_, by decide, by decide, by decide⟩
  intro env
  rw [work_downloadCalled]
  unfold isUrlInput
  simp [Bool.or_eq_true]

/-- Witness for C10: a concrete uppercase `HTTP` URL input makes the worker
call the download stage. -/
theorem claim_C10_witness :
    (work { sampleEnv with inputPath := "HTTP://host/v.mp4".toList }).downloadCalled = true :=
  (claim_C10_url_detection.1 { sampleEnv with inputPath := "HTTP://host/v.mp4".toList }).mpr
    (Or.inl (by decide))

theorem workFromLocal_trimInvoked_inv {env : WorkEnv} {p : Str} {dl : Bool}
    (h : (workFromLocal env p dl).trimInvoked = true) :
    ∃ sOpt eOpt, parseTimeToSeconds env.startText = .ok sOpt
      ∧ parseTimeToSeconds env.endText = .ok eOpt
      ∧ (sOpt.isSome = true ∨ eOpt.isSome = true)
      ∧ (∀ s0 e0 : ℚ, sOpt = some s0 → eOpt = some e0 → s0 < e0) := by
  unfold workFromLocal workAfterTrim at h
  cases hs : parseTimeToSeconds env.startText with
  | error m => rw [hs] at h; simp at h
  | ok startS =>
    rw [hs] at h
    simp only [] at h
    cases he : parseTimeToSeconds env.endText with
    | error m => rw [he] at h; simp at h
    | ok endS =>
      rw [he] at h
      simp only [] at h
      rcases startS with _ | s <;> rcases endS with _ | e
      · rw [if_neg (by simp)] at h
        simp at h
      · exact ⟨none, some e, rfl, rfl, by simp, fun s0 e0 hc _ => absurd hc (by simp)⟩
      · exact ⟨some s, none, rfl, rfl, by simp, fun s0 e0 _ hc => absurd hc (by simp)⟩
      · rw [if_pos (by simp)] at h
        by_cases hle : e ≤ s
        · rw [if_pos (by simp [hle])] at h
          simp at h
        · refine ⟨some s, some e, rfl, rfl, by simp, ?_⟩
          intro s0 e0 hs0 he0
          obtain rfl : s = s0 := Option.some.inj hs0
          obtain rfl : e = e0 := Option.some.inj he0
          exact not_le.mp hle

/-- C2: whenever both time bounds parse and `end ≤ start`, the run fails with
the invalid-range error, the trimmer is never invoked and no ffmpeg
subprocess runs (provided the run reaches the parsing stage, i.e. a remote
input downloaded successfully); conversely the trimmer is only ever invoked
when at least one bound is present and, if both are, `start < end`. -/
theorem claim_C2_range_validated_before_trim :
    (∀ (env : WorkEnv) (s0 e0 : ℚ),
      parseTimeToSeconds env.startText = .ok (some s0) →
      parseTimeToSeconds env.endText = .ok (some e0) →
      e0 ≤ s0 → downloadOkIfUrl env →
      (work env).result = .error .invalidRange
        ∧ (work env).trimInvoked = false ∧ (work env).ffmpegCalls = [])
    ∧ (∀ env : WorkEnv, (work env).trimInvoked = true →
        ∃ sOpt eOpt, parseTimeToSeconds env.startText = .ok sOpt
          ∧ parseTimeToSeconds env.endText = .ok eOpt
          ∧ (sOpt.isSome = true ∨ eOpt.isSome = true)
          ∧ (∀ s0 e0 : ℚ, sOpt = some s0 → eOpt = some e0 → s0 < e0)) := by
  constructor
  · intro env s0 e0 hs he hle hdl
    have key : ∀ (p : Str) (dl : Bool),
        workFromLocal env p dl
          = { downloadCalled := dl, trimInvoked := false, ffmpegCalls := [], logs := [],
              result := .error .invalidRange } := by
      intro p dl
      unfold workFromLocal
      rw [hs]
      simp only []
      rw [he]
      simp only []
      rw [if_pos (by simp), if_pos (by simp [hle])]
    unfold work
    by_cases hu : isUrlInput env.inputPath = true
    · obtain ⟨p, hp⟩ := hdl hu
      rw [if_pos hu, hp]
      simp only []
      rw [key]
      exact ⟨rfl, rfl, rfl⟩
    · rw [if_neg hu, key]
      exact ⟨rfl, rfl, rfl⟩
  · intro env h
    unfold work at h
    by_cases hu : isUrlInput env.inputPath = true
    · rw [if_pos hu] at h
      cases hdl : env.downloadOutcome with
      | error m => rw [hdl] at h; simp at h
      | ok p =>
        rw [hdl] at h
        simp only [] at h
        exact workFromLocal_trimInvoked_inv h
    · rw [if_neg hu] at h
      exact workFromLocal_trimInvoked_inv h

/-- Witness for C2: start `"90"`, end `"01:30"` (both parse to 90, so
`end ≤ start`): the run fails with the invalid-range error and no ffmpeg
subprocess ran. -/
theorem claim_C2_witness :
    (work { sampleEnv with startText := "90".toList, endText := "01:30".toList }).result
        = .error .invalidRange
      ∧ (work { sampleEnv with startText := "90".toList, endText := "01:30".toList }).trimInvoked
        = false
      ∧ (work { sampleEnv with startText := "90".toList, endText := "01:30".toList }).ffmpegCalls
        = [] :=
  claim_C2_range_validated_before_trim.1
    { sampleEnv with startText := "90".toList, endText := "01:30".toList } 90 90
    (by rfl) parse_0130 (le_refl 90) (fun hu => absurd hu (by decide))

theorem extractChecks_update (env : WorkEnv) (p : ProbeOutcome) (r : RoiOutcome) :
    extractChecks { env with probe := p, roi := r } = extractChecks env := rfl

theorem extractOptions_update_error_iff (env : WorkEnv) (p : ProbeOutcome) (r : RoiOutcome)
    (q1 q2 : Str) (mc1 mc2 : Option (Int × Int × Int × Int)) (err : WorkErr) :
    extractOptions { env with probe := p, roi := r } q1 mc1 = .error err
      ↔ extractOptions env q2 mc2 = .error err := by
  unfold extractOptions
  rw [extractChecks_update]
  cases hc : extractChecks env with
  | error e => simp [Except.map]
  | ok c => simp [Except.map]

theorem errOf_extractOptions (env : WorkEnv) (p : Str)
    (mc : Option (Int × Int × Int × Int)) :
    errOf (extractOptions env p mc) = errOfChecks env := by
  unfold extractOptions errOfChecks
  cases hc : extractChecks env <;> simp [Except.map, errOf]

theorem workFromLocal_control_spec (env : WorkEnv) (inputP : Str) (dl : Bool) :
    ((workFromLocal env inputP dl).downloadCalled, (workFromLocal env inputP dl).trimInvoked,
      (workFromLocal env inputP dl).ffmpegCalls, errOf (workFromLocal env inputP dl).result)
      = workControlLocal env inputP dl := by
  unfold workFromLocal workAfterTrim workControlLocal
  cases hs : parseTimeToSeconds env.startText with
  | error m => rfl
  | ok startS =>
    simp only []
    cases he : parseTimeToSeconds env.endText with
    | error m => rfl
    | ok endS =>
      simp only []
      rcases startS with _ | s <;> rcases endS with _ | e
      · rw [if_neg (by simp)]
        simp only []
        rw [errOf_extractOptions]
        simp
      · rw [if_pos (by simp), if_neg (by simp)]
        cases ht : (trimVideoWithFfmpeg env.trimEnv inputP env.clipPath none (some e)).result with
        | error u => simp [errOf]
        | ok u =>
          simp only []
          rw [errOf_extractOptions]
          simp
      · rw [if_pos (by simp), if_neg (by simp)]
        cases ht : (trimVideoWithFfmpeg env.trimEnv inputP env.clipPath (some s) none).result with
        | error u => simp [errOf]
        | ok u =>
          simp only []
          rw [errOf_extractOptions]
          simp
      · rw [if_pos (by simp)]
        by_cases hle : e ≤ s
        · rw [if_pos (by simp [hle])]
          simp [errOf, hle]
        · rw [if_neg (by simp [hle])]
          cases ht : (trimVideoWithFfmpeg env.trimEnv inputP env.clipPath (some s) (some e)).result with
          | error u => simp [errOf, hle]
          | ok u =>
            simp only []
            rw [errOf_extractOptions]
            simp [hle]

theorem work_control_spec (env : WorkEnv) :
    ((work env).downloadCalled, (work env).trimInvoked, (work env).ffmpegCalls,
      errOf (work env).result) = workControl env := by
  unfold work workControl
  by_cases hu : isUrlInput env.inputPath = true
  · rw [if_pos hu, if_pos hu]
    cases hdl : env.downloadOutcome with
    | error m => rfl
    | ok p => simp only []; exact workFromLocal_control_spec env p true
  · rw [if_neg hu, if_neg hu]
    exact workFromLocal_control_spec env env.inputPath false

theorem workControl_update (env : WorkEnv) (p : ProbeOutcome) (r : RoiOutcome) :
    workControl { env with probe := p, roi := r } = workControl env := rfl

theorem errOf_eq_error_iff {x y : Except WorkErr ExtractArgs} (h : errOf x = errOf y)
    (err : WorkErr) : (x = .error err ↔ y = .error err) := by
  cases x with
  | error a =>
    cases y with
    | error b =>
      simp only [errOf, Option.some.injEq] at h
      subst h
      exact Iff.rfl
    | ok b => simp [errOf] at h
  | ok a =>
    cases y with
    | error b => simp [errOf] at h
    | ok b => simp

theorem work_sameControl (env : WorkEnv) (p1 p2 : ProbeOutcome) (r1 r2 : RoiOutcome) :
    sameControl (work { env with probe := p1, roi := r1 })
      (work { env with probe := p2, roi := r2 }) := by
  have e1 := work_control_spec { env with probe := p1, roi := r1 }
  have e2 := work_control_spec { env with probe := p2, roi := r2 }
  rw [workControl_update] at e1 e2
  have e12 := e1.trans e2.symm
  simp only [Prod.mk.injEq] at e12
  obtain ⟨h1, h2, h3, h4⟩ := e12
  exact ⟨h1, h2, h3, fun err => errOf_eq_error_iff h4 err⟩

theorem extractChecks_ok_crop {env : WorkEnv} {c : ParamChecks} (h : extractChecks env = .ok c) :
    parse_crop (if pyStrip env.cropText = [] then none else some (pyStrip env.cropText))
      = .ok c.cropSpec := by
  unfold extractChecks at h
  cases h1 : floatOrDefault env.sampleText (1 / 2 : ℚ) with
  | error e => rw [h1] at h; simp at h
  | ok sample =>
    rw [h1] at h
    simp only [] at h
    cases h2 : intOrDefault env.thresholdText 10 with
    | error e => rw [h2] at h; simp at h
    | ok thr =>
      rw [h2] at h
      simp only [] at h
      cases h3 : parse_crop (if pyStrip env.cropText = [] then none
          else some (pyStrip env.cropText)) with
      | error m => rw [h3] at h; simp at h
      | ok cropSpec =>
        rw [h3] at h
        simp only [] at h
        cases h4 : optIntField env.scaleWidthText with
        | error e => rw [h4] at h; simp at h
        | ok sw =>
          rw [h4] at h
          simp only [] at h
          cases h5 : optIntField env.maxPagesText with
          | error e => rw [h5] at h; simp at h
          | ok mp =>
            rw [h5] at h
            simp only [] at h
            cases h6 : floatOrDefault env.autoTrimRatioText (49 / 50 : ℚ) with
            | error e => rw [h6] at h; simp at h
            | ok atRatio =>
              rw [h6] at h
              simp only [] at h
              cases h7 : intOrDefault env.autoTrimPadText 6 with
              | error e => rw [h7] at h; simp at h
              | ok atPad =>
                rw [h7] at h
                simp only [] at h
                cases h8 : intOrDefault env.autoCropPadText 6 with
                | error e => rw [h8] at h; simp at h
                | ok acPad =>
                  rw [h8] at h
                  simp only [] at h
                  cases h9 : floatOrDefault env.autoCropMinAreaText (1 / 20 : ℚ) with
                  | error e => rw [h9] at h; simp at h
                  | ok acMin =>
                    rw [h9] at h
                    simp only [] at h
                    injection h with hrec
                    subst hrec
                    rfl

/-- C7: the resolution probe and the manual region selection never abort the
run — for any two probe/selection outcomes the run makes the same download
decision, the same trimmer invocations, and raises the same error (if any);
and when the selection yields no manual crop (cancelled, zero-area, failed,
or disabled), the crop handed to the extractor is exactly the value of the
explicit crop-spec parse. -/
theorem claim_C7_probe_selection_nonfatal :
    (∀ (env : WorkEnv) (p1 p2 : ProbeOutcome) (r1 r2 : RoiOutcome),
      sameControl (work { env with probe := p1, roi := r1 })
        (work { env with probe := p2, roi := r2 }))
    ∧ (∀ (env : WorkEnv) (args : ExtractArgs), (work env).result = .ok args →
        manualCropOf env.manualSelect env.roi = none →
        ∃ c, parse_crop (if pyStrip env.cropText = [] then none
            else some (pyStrip env.cropText)) = .ok c ∧ args.crop = c) := by
  constructor
  · intro env p1 p2 r1 r2
    exact work_sameControl env p1 p2 r1 r2
  · intro env args h hmc
    obtain ⟨q, hq⟩ := work_ok_extract h
    obtain ⟨_, c, hchecks, hcrop⟩ := extractOptions_ok_fields hq
    refine ⟨c.cropSpec, extractChecks_ok_crop hchecks, ?_⟩
    rw [hcrop, hmc]
    rfl

/-- Witness for C7: over the benign sample environment (manual selection
disabled) the run reaches extraction and the crop equals the explicit
crop-spec parse (here: absent). -/
theorem claim_C7_witness :
    ∃ c, parse_crop (if pyStrip sampleEnv.cropText = [] then none
        else some (pyStrip sampleEnv.cropText)) = .ok c ∧ sampleArgs.crop = c :=
  claim_C7_probe_selection_nonfatal.2 sampleEnv sampleArgs (by rfl) (by rfl)

theorem fmt3_length (q : ℚ) : 4 ≤ (fmt3 q).length := by
  by_cases hq : q < 0 <;> simp [fmt3, natPad3, hq] <;> omega

theorem ne_fmt3_t (q : ℚ) : "-t".toList ≠ fmt3 q := by
  intro h
  have hl := fmt3_length q
  rw [← h] at hl
  simp at hl

theorem trim_calls_shape (env : TrimEnv) (src dst : Str) (startS endS : Option ℚ) (f : Str)
    (hf : env.ffmpegPath = some f) :
    (trimVideoWithFfmpeg env src dst startS endS).calls
        = [trimBaseArgs f src startS endS ++ fastTail dst]
    ∨ (trimVideoWithFfmpeg env src dst startS endS).calls
        = [trimBaseArgs f src startS endS ++ fastTail dst,
           trimBaseArgs f src startS endS ++ slowTail dst] := by
  unfold trimVideoWithFfmpeg
  rw [hf]
  simp only []
  by_cases h1 : (env.fastResult.returncode = 0 ∧ env.fastResult.dstExists = true
      ∧ 0 < env.fastResult.dstSize)
  · rw [if_pos h1]
    left
    rfl
  · rw [if_neg h1]
    by_cases h2 : (env.slowResult.returncode ≠ 0 ∨ env.slowResult.dstExists = false
        ∨ env.slowResult.dstSize = 0)
    · rw [if_pos h2]
      right
      rfl
    · rw [if_neg h2]
      right
      rfl

/-- C9: the trimmer checks for the transcoding tool first and, when it is
absent, raises the tool-missing error without running any subprocess; with
the tool present (and under the range precondition the orchestrator
guarantees at every call site), the shared argument prefix contains the
overwrite flag, contains `-ss start` exactly when a start bound is present,
contains `-t end-start` exactly when both bounds are present (so an end bound
alone passes no duration), and every ffmpeg invocation extends that shared
prefix. -/
theorem claim_C9_toolcheck_and_shared_args (env : TrimEnv) (src dst : Str)
    (startS endS : Option ℚ) :
    (env.ffmpegPath = none →
      trimVideoWithFfmpeg env src dst startS endS
        = { calls := [], result := .error .toolMissing })
    ∧ (∀ f : Str, env.ffmpegPath = some f →
        (∀ s0 e0 : ℚ, startS = some s0 → endS = some e0 → s0 < e0) →
        f ≠ "-ss".toList → f ≠ "-t".toList → src ≠ "-ss".toList → src ≠ "-t".toList →
        ("-y".toList ∈ trimBaseArgs f src startS endS
        ∧ ("-ss".toList ∈ trimBaseArgs f src startS endS ↔ startS.isSome = true)
        ∧ (∀ s0 : ℚ, startS = some s0 →
            adjacentIn "-ss".toList (fmt3 s0) (trimBaseArgs f src startS endS))
        ∧ ("-t".toList ∈ trimBaseArgs f src startS endS
            ↔ (startS.isSome = true ∧ endS.isSome = true))
        ∧ (∀ s0 e0 : ℚ, startS = some s0 → endS = some e0 →
            adjacentIn "-t".toList (fmt3 (e0 - s0)) (trimBaseArgs f src startS endS))
        ∧ (∀ callArgs ∈ (trimVideoWithFfmpeg env src dst startS endS).calls,
            ∃ tail, callArgs = trimBaseArgs f src startS endS ++ tail))) := by
  constructor
  · intro h
    unfold trimVideoWithFfmpeg
    rw [h]
  · intro f hf hrange hf1 hf2 hsrc1 hsrc2
    have hcalls : ∀ callArgs ∈ (trimVideoWithFfmpeg env src dst startS endS).calls,
        ∃ tail, callArgs = trimBaseArgs f src startS endS ++ tail := by
      intro c hc
      rcases trim_calls_shape env src dst startS endS f hf with hcl | hcl
      · rw [hcl] at hc
        simp at hc
        exact ⟨fastTail dst, hc⟩
      · rw [hcl] at hc
        simp at hc
        rcases hc with hc | hc
        · exact ⟨fastTail dst, hc⟩
        · exact ⟨slowTail dst, hc⟩
    rcases startS with _ | s0 <;> rcases endS with _ | e0
    · have hbase : trimBaseArgs f src none none = [f, "-y".toList, "-i".toList, src] := rfl
      refine ⟨?_, ?_, ?_, ?_, ?_, hcalls⟩
      · rw [hbase]; simp
      · rw [hbase]
        simp
        exact ⟨fun h => hf1 h.symm, fun h => hsrc1 h.symm⟩
      · intro s1 hs1
        exact absurd hs1 (by simp)
      · rw [hbase]
        simp
        exact ⟨fun h => hf2 h.symm, fun h => hsrc2 h.symm⟩
      · intro s1 e1 hs1 _
        exact absurd hs1 (by simp)
    · have hbase : trimBaseArgs f src none (some e0) = [f, "-y".toList, "-i".toList, src] := rfl
      refine ⟨?_, ?_, ?_, ?_, ?_, hcalls⟩
      · rw [hbase]; simp
      · rw [hbase]
        simp
        exact ⟨fun h => hf1 h.symm, fun h => hsrc1 h.symm⟩
      · intro s1 hs1
        exact absurd hs1 (by simp)
      · rw [hbase]
        simp
        exact ⟨fun h => hf2 h.symm, fun h => hsrc2 h.symm⟩
      · intro s1 e1 hs1 _
        exact absurd hs1 (by simp)
    · have hbase : trimBaseArgs f src (some s0) none
          = [f, "-y".toList, "-ss".toList, fmt3 s0, "-i".toList, src] := rfl
      refine ⟨?_, ?_, ?_, ?_, ?_, hcalls⟩
      · rw [hbase]; simp
      · rw [hbase]; simp
      · intro s1 hs1
        obtain rfl : s0 = s1 := Option.some.inj hs1
        refine ⟨[f, "-y".toList], ["-i".toList, src], ?_⟩
        rw [hbase]
        rfl
      · rw [hbase]
        simp
        exact ⟨fun h => hf2 h.symm, fun h => ne_fmt3_t s0 h, fun h => hsrc2 h.symm⟩
      · intro s1 e1 _ he1
        exact absurd he1 (by simp)
    · have hlt : s0 < e0 := hrange s0 e0 rfl rfl
      have hdur : durationOf (some s0) (some e0) = some (e0 - s0) := by
        unfold durationOf
        simp only []
        rw [if_pos hlt]
      have hbase : trimBaseArgs f src (some s0) (some e0)
          = [f, "-y".toList, "-ss".toList, fmt3 s0, "-i".toList, src,
             "-t".toList, fmt3 (e0 - s0)] := by
        unfold trimBaseArgs
        rw [hdur]
        rfl
      refine ⟨?_, ?_, ?_, ?_, ?_, hcalls⟩
      · rw [hbase]; simp
      · rw [hbase]; simp
      · intro s1 hs1
        obtain rfl : s0 = s1 := Option.some.inj hs1
        refine ⟨[f, "-y".toList], ["-i".toList, src, "-t".toList, fmt3 (e0 - s0)], ?_⟩
        rw [hbase]
        rfl
      · rw [hbase]; simp
      · intro s1 e1 hs1 he1
        obtain rfl : s0 = s1 := Option.some.inj hs1
        obtain rfl : e0 = e1 := Option.some.inj he1
        refine ⟨[f, "-y".toList, "-ss".toList, fmt3 s0, "-i".toList, src], [], ?_⟩
        rw [hbase]
        rfl

/-- Witness for C9: with a concrete tool path and bounds 5 and 10, `-t` is in
the shared prefix (both bounds present). -/
theorem claim_C9_witness :
    "-t".toList ∈ trimBaseArgs "/usr/bin/ffmpeg".toList "in.mp4".toList
        (some (5 : ℚ)) (some (10 : ℚ))
      ↔ ((some (5 : ℚ)).isSome = true ∧ (some (10 : ℚ)).isSome = true) :=
  ((claim_C9_toolcheck_and_shared_args c1Env "in.mp4".toList "out.mp4".toList
      (some (5 : ℚ)) (some (10 : ℚ))).2 "/usr/bin/ffmpeg".toList rfl
    (by
      intro s0 e0 h1 h2
      obtain rfl : (5 : ℚ) = s0 := Option.some.inj h1
      obtain rfl : (10 : ℚ) = e0 := Option.some.inj h2
      norm_num)
    (by decide) (by decide) (by decide) (by decide)).2.2.2.1

end SlidesPdf
